import Mathlib

/-!
Verification of the QuantDinger on-chain payment order reconciliation engine
(USDT billing subsystem) against its specification.

The repository ships the Vue client for this subsystem:
  - `src/quantdinger_vue/src/api/billing.js` (API request construction)
  - `src/quantdinger_vue/src/views/billing/index.vue` (checkout UI, polling)
Those are embedded faithfully below.  The backend components the spec
describes (Address Allocator, Order Store, Reconciler, Settlement Effector,
Expiry Sweeper) are not part of the repository sources; where a claim is
about them, the corresponding definition is modelled from the spec and says
so in its doc comment.
-/

namespace QuantDinger

/-! ## Client-side order object (`usdtOrder` in billing/index.vue)

The Vue component stores the order object returned by the backend; the
fields read by the component are `order_id`, `status`, `address`,
`amount_usdt`, `chain`, `expires_at`.  All are strings on the wire. -/

structure ClientOrder where
  order_id : String
  status : String
  address : String
  amount_usdt : String
  chain : String
  expires_at : String
  deriving DecidableEq, Repr

/-- JS string truthiness: the empty string is falsy, every other string truthy. -/
def strTruthy (s : String) : Bool := s ≠ ""

/-- Embeds `const s = (this.usdtOrder && this.usdtOrder.status) ? String(this.usdtOrder.status) : ''`
(billing/index.vue, used by `statusText`, `statusColor`, `usdtStepCurrent`). -/
def statusOf (order : Option ClientOrder) : String :=
  match order with
  | some o => if strTruthy o.status then o.status else ""
  | none => ""

/-- The six status keys of the `map` object in `statusText`
(billing/index.vue lines 237-244).  The i18n call `$t(key)` is modelled as
returning the key itself (a non-empty, hence truthy, label). -/
def statusLabelMap (s : String) : Option String :=
  if s = "pending" then some "billing.usdt.status.pending"
  else if s = "paid" then some "billing.usdt.status.paid"
  else if s = "confirmed" then some "billing.usdt.status.confirmed"
  else if s = "expired" then some "billing.usdt.status.expired"
  else if s = "cancelled" then some "billing.usdt.status.cancelled"
  else if s = "failed" then some "billing.usdt.status.failed"
  else none

/-- The `statusText` computed property: `return map[s] || s || '--'`. -/
def statusText (order : Option ClientOrder) : String :=
  let s := statusOf order
  match statusLabelMap s with
  | some label => label
  | none => if strTruthy s then s else "--"

/-- The `statusColor` computed property (billing/index.vue lines 247-253). -/
def statusColor (order : Option ClientOrder) : String :=
  let s := statusOf order
  if s = "confirmed" then "green"
  else if s = "paid" then "blue"
  else if s = "expired" || s = "failed" || s = "cancelled" then "red"
  else "orange"

/-- The `usdtStepCurrent` computed property (billing/index.vue lines 254-259). -/
def usdtStepCurrent (order : Option ClientOrder) : Nat :=
  let s := statusOf order
  if s = "confirmed" then 2
  else if s = "paid" then 1
  else 0

/-! ## API request construction (`api/billing.js`) -/

/-- The shape of the object handed to `request({...})` by the billing API
module: url, HTTP method, and query parameters. -/
structure ApiRequest where
  url : String
  method : String
  params : List (String × Nat)
  deriving DecidableEq, Repr

/-- Embeds `UsdtOrder: (id) => ` followed by the template literal
`/api/billing/usdt/order/` + id (api/billing.js line 7). -/
def usdtOrderUrl (id : String) : String := "/api/billing/usdt/order/" ++ id

/-- Default of the `refresh` parameter of `getUsdtOrder` (api/billing.js
line 33: the declaration defaults `refresh` to `true`). -/
def getUsdtOrderDefaultRefresh : Bool := true

/-- Embeds `getUsdtOrder(orderId, refresh)` (api/billing.js lines 33-39):
GET on the per-order url with `params: { refresh: refresh ? 1 : 0 }`. -/
def getUsdtOrder (orderId : String) (refresh : Bool) : ApiRequest :=
  { url := usdtOrderUrl orderId
  , method := "get"
  , params := [("refresh", if refresh then 1 else 0)] }

/-! ## Backend responses as seen by the client

`request(...)` resolves to a JSON body `{ code, data, msg }` or rejects
(network error / HTTP error).  A rejected promise is modelled as `none`. -/

structure ApiResponse where
  code : Int
  data : Option ClientOrder
  deriving DecidableEq, Repr

/-! ## The billing page component state

Fields of `data()` in billing/index.vue relevant to the USDT checkout flow,
together with an explicit model of the browser timer environment:
`scheduled` is the list of currently scheduled intervals `(id, periodMs)`
and `nextTimerId` the next id `setInterval` will return (browser interval
ids are positive, so `nextTimerId` starts at 1). -/

structure BillingState where
  usdtModalVisible : Bool
  usdtOrder : Option ClientOrder
  usdtPollingTimer : Option Nat
  scheduled : List (Nat × Nat)
  nextTimerId : Nat
  deriving DecidableEq, Repr

/-- The component's initial data: modal closed, no order, no timer. -/
def initialBillingState : BillingState :=
  { usdtModalVisible := false
  , usdtOrder := none
  , usdtPollingTimer := none
  , scheduled := []
  , nextTimerId := 1 }

/-- JS truthiness of the `usdtPollingTimer` handle (`null` and `0` are falsy). -/
def timerTruthy : Option Nat → Bool
  | none => false
  | some t => t ≠ 0

/-- Embeds `stopUsdtPolling` (billing/index.vue lines 386-391):
`if (this.usdtPollingTimer) { clearInterval(...); this.usdtPollingTimer = null }`.
`clearInterval t` removes the interval `t` from the browser's schedule. -/
def stopUsdtPolling (st : BillingState) : BillingState :=
  if timerTruthy st.usdtPollingTimer then
    match st.usdtPollingTimer with
    | some t =>
      { st with
        scheduled := st.scheduled.filter (fun p => p.1 ≠ t)
      , usdtPollingTimer := none }
    | none => st
  else st

/-- The poll period passed to `setInterval` in `startUsdtPolling`: 5000 ms. -/
def usdtPollPeriodMs : Nat := 5000

/-- Embeds `startUsdtPolling` (billing/index.vue lines 379-384):
`this.stopUsdtPolling(); this.usdtPollingTimer = setInterval(..., 5000)`. -/
def startUsdtPolling (st : BillingState) : BillingState :=
  let st := stopUsdtPolling st
  { st with
    usdtPollingTimer := some st.nextTimerId
  , scheduled := (st.nextTimerId, usdtPollPeriodMs) :: st.scheduled
  , nextTimerId := st.nextTimerId + 1 }

/-- Embeds `closeUsdtModal` (billing/index.vue lines 393-396). -/
def closeUsdtModal (st : BillingState) : BillingState :=
  stopUsdtPolling { st with usdtModalVisible := false }

/-- Embeds the `beforeDestroy` hook (billing/index.vue lines 291-293). -/
def beforeDestroy (st : BillingState) : BillingState :=
  stopUsdtPolling st

/-- Embeds `buy(plan)` (billing/index.vue lines 319-336), given the settled outcome
`res` of `createUsdtOrder(plan)` (`none` = the promise rejected).  On
`res && res.code === 1 && res.data` it stores the order, opens the modal and
starts polling; otherwise it only shows an error message. -/
def buy (st : BillingState) (res : Option ApiResponse) : BillingState :=
  match res with
  | some r =>
    if r.code = 1 then
      match r.data with
      | some d =>
        startUsdtPolling { st with usdtOrder := some d, usdtModalVisible := true }
      | none => st
    else st
  | none => st

/-- Embeds `refreshUsdtOrder` (billing/index.vue lines 360-377), given the settled
outcome `res` of `getUsdtOrder(order_id, true)` (`none` = the promise
rejected; the `catch` block is empty).  Guard: returns immediately unless
`this.usdtOrder && this.usdtOrder.order_id` is truthy.  On
`res && res.code === 1 && res.data` it replaces the order and, if the new
status is `confirmed`, stops polling; on any other outcome it changes
nothing. -/
def refreshUsdtOrder (st : BillingState) (res : Option ApiResponse) : BillingState :=
  match st.usdtOrder with
  | none => st
  | some o =>
    if ¬ strTruthy o.order_id then st
    else
      match res with
      | none => st
      | some r =>
        if r.code = 1 then
          match r.data with
          | some d =>
            let st2 := { st with usdtOrder := some d }
            if d.status = "confirmed" then stopUsdtPolling st2 else st2
          | none => st
        else st

/-- The request that `refreshUsdtOrder` issues when its guard passes:
`getUsdtOrder(this.usdtOrder.order_id, true)` (billing/index.vue line 364). -/
def refreshRequest (st : BillingState) : Option ApiRequest :=
  match st.usdtOrder with
  | none => none
  | some o =>
    if strTruthy o.order_id then some (getUsdtOrder o.order_id true) else none

/-- What the payment modal displays for the receiving address: the template
renders `usdtOrder.address` inside the modal body, which exists only when
the modal is open and `usdtOrder` is set (`v-if="usdtOrder"`). -/
def displayedAddress (st : BillingState) : Option String :=
  if st.usdtModalVisible then st.usdtOrder.map (fun o => o.address) else none

/-- What the payment modal displays for the amount: `usdtOrder.amount_usdt`. -/
def displayedAmount (st : BillingState) : Option String :=
  if st.usdtModalVisible then st.usdtOrder.map (fun o => o.amount_usdt) else none

/-! ## Timer invariant and the component's event alphabet -/

/-- Events that can touch the polling timer, in the order their synchronous
suffixes run on the JS main thread (each `await` boundary is an event
boundary; the tail of `buy` after the response arrives runs atomically, as
does the tail of `refreshUsdtOrder`). -/
inductive BillingEvent
  | buyEv (res : Option ApiResponse)
  | refreshEv (res : Option ApiResponse)
  | closeEv
  | destroyEv
  deriving DecidableEq, Repr

def stepEvent (st : BillingState) : BillingEvent → BillingState
  | BillingEvent.buyEv res => buy st res
  | BillingEvent.refreshEv res => refreshUsdtOrder st res
  | BillingEvent.closeEv => closeUsdtModal st
  | BillingEvent.destroyEv => beforeDestroy st

/-- At most one interval is ever scheduled, and the handle tracks it exactly:
`usdtPollingTimer` is `some t` precisely when the single scheduled interval
is `t`; handles are positive and below the allocator's next id. -/
def timerInv (st : BillingState) : Bool :=
  match st.usdtPollingTimer, st.scheduled with
  | some t, [(a, _)] =>
    a = t && decide (1 ≤ t) && decide (t < st.nextTimerId) &&
      decide (1 ≤ st.nextTimerId)
  | none, [] => decide (1 ≤ st.nextTimerId)
  | _, _ => false

/-! ## Client default plan table (billing/index.vue lines 281-285) -/

/-- One entry of the component's `plans` table.  `credits_once` /
`credits_monthly` are present only on the plans that carry them in the
source, hence `Option`. -/
structure PlanInfo where
  price_usd : ℚ
  credits_once : Option Nat
  credits_monthly : Option Nat
  deriving DecidableEq, Repr

structure PlanTable where
  monthly : PlanInfo
  yearly : PlanInfo
  lifetime : PlanInfo
  deriving DecidableEq, Repr

/-- The default `plans` object in `data()`:
`monthly: { price_usd: 19.9, credits_once: 500 }`,
`yearly: { price_usd: 199, credits_once: 8000 }`,
`lifetime: { price_usd: 499, credits_monthly: 800 }`. -/
def defaultPlans : PlanTable :=
  { monthly := { price_usd := 19.9, credits_once := some 500, credits_monthly := none }
  , yearly := { price_usd := 199, credits_once := some 8000, credits_monthly := none }
  , lifetime := { price_usd := 499, credits_once := none, credits_monthly := some 800 } }

/-! ## Backend order state machine (modelled from the spec)

The backend is not among the repository sources; the definitions in this
section carry `Modelled from the spec:` doc comments and follow spec
sections 3, 4.2, 4.5 and 8 word for word. -/

/-- Modelled from the spec: `status` is "one of `pending`, `paid`,
`confirmed`, `expired`, `cancelled`, `failed`" (spec section 3); the backend
Order Store holding it is not in src/. -/
inductive OrderStatus
  | pending
  | paid
  | confirmed
  | expired
  | cancelled
  | failed
  deriving DecidableEq, Repr

/-- Modelled from the spec: the initial state of the section 4.2 state
machine is `pending`. -/
def initialStatus : OrderStatus := OrderStatus.pending

/-- Modelled from the spec: `confirmed`, `expired`, `cancelled`, `failed`
are the terminal states of the section 4.2 state machine. -/
def isTerminal : OrderStatus → Bool
  | OrderStatus.confirmed => true
  | OrderStatus.expired => true
  | OrderStatus.cancelled => true
  | OrderStatus.failed => true
  | _ => false

/-- Modelled from the spec: the from/to pairs of the section 4.2 transition
table.  The row "any non-terminal → failed" contributes `pending → failed`
and `paid → failed`. -/
def statusTransitions : List (OrderStatus × OrderStatus) :=
  [ (OrderStatus.pending, OrderStatus.paid)
  , (OrderStatus.pending, OrderStatus.expired)
  , (OrderStatus.pending, OrderStatus.cancelled)
  , (OrderStatus.paid, OrderStatus.confirmed)
  , (OrderStatus.paid, OrderStatus.failed)
  , (OrderStatus.pending, OrderStatus.failed) ]

/-- The six wire strings of the statuses, in declaration order; the client
maps `OrderStatus` values it receives as these strings. -/
def statusWire : OrderStatus → String
  | OrderStatus.pending => "pending"
  | OrderStatus.paid => "paid"
  | OrderStatus.confirmed => "confirmed"
  | OrderStatus.expired => "expired"
  | OrderStatus.cancelled => "cancelled"
  | OrderStatus.failed => "failed"

/-- Modelled from the spec: the `PaymentOrder` entity of section 3, with the
fields the claims need; the backend Order Store is not in src/.  Amounts are
exact rationals, times are abstract ticks. -/
structure PaymentOrder where
  order_id : Nat
  plan : String
  expected_amount : ℚ
  observed_amount : ℚ
  status : OrderStatus
  tx_reference : Option String
  created_at : Nat
  expires_at : Nat
  confirmed_at : Option Nat
  settlement_applied : Bool
  deriving DecidableEq, Repr

/-- Modelled from the spec: `CreateOrder` fixes `expected_amount` "at order
creation from the plan price at that moment" and starts the order `pending`
with `expires_at = created_at + fixed_ttl` (spec sections 3 and 6); the
backend is not in src/. -/
def createPaymentOrder (oid : Nat) (plan : String) (planPrice : ℚ)
    (now ttl : Nat) : PaymentOrder :=
  { order_id := oid
  , plan := plan
  , expected_amount := planPrice
  , observed_amount := 0
  , status := OrderStatus.pending
  , tx_reference := none
  , created_at := now
  , expires_at := now + ttl
  , confirmed_at := none
  , settlement_applied := false }

/-- A transfer as reported by the Chain Oracle
(`ListTransfers(address) → [{amount, tx_reference, confirmations}]`). -/
structure Transfer where
  amount : ℚ
  tx_ref : String
  confirmations : Nat
  deriving DecidableEq, Repr

/-- Modelled from the spec: the mutations section 3's Lifecycle paragraph
allows on an existing order — the Reconciler marks `pending → paid`
(recording `tx_reference` and `observed_amount`) and `paid → confirmed` or
`paid → failed`, the Expiry Sweeper marks `pending → expired`, a user/admin
cancels a not-yet-paid order; the backend is not in src/. -/
inductive OrderOp
  | markPaid (tr : Transfer)
  | markConfirmed
  | markFailed
  | expire (now : Nat)
  | cancel
  deriving DecidableEq, Repr

/-- Modelled from the spec: applying one lifecycle mutation, each guarded as
in the section 4.2 table; `expected_amount` "is not re-evaluated later"
(spec section 3), so no branch writes it. -/
def applyOrderOp (o : PaymentOrder) : OrderOp → PaymentOrder
  | OrderOp.markPaid tr =>
    if o.status = OrderStatus.pending then
      { o with
        status := OrderStatus.paid,
        tx_reference := some tr.tx_ref,
        observed_amount := tr.amount }
    else o
  | OrderOp.markConfirmed =>
    if o.status = OrderStatus.paid then
      { o with status := OrderStatus.confirmed }
    else o
  | OrderOp.markFailed =>
    if isTerminal o.status then o else { o with status := OrderStatus.failed }
  | OrderOp.expire now =>
    if o.status = OrderStatus.pending && decide (o.expires_at < now) then
      { o with status := OrderStatus.expired }
    else o
  | OrderOp.cancel =>
    if o.status = OrderStatus.pending then
      { o with status := OrderStatus.cancelled }
    else o

/-! ## Settlement Effector (modelled from the spec) -/

/-- An order paired with the number of times the account-crediting side
effect has actually run against the ledger. -/
structure SettleState where
  ord : PaymentOrder
  effectCount : Nat
  deriving DecidableEq, Repr

/-- Modelled from the spec: the Settlement Effector of section 4.5 — takes
an order the caller guarantees is `confirmed`; "checks `settlement_applied`;
if false, atomically applies the effect and sets `settlement_applied=true`,
`confirmed_at=now`; if true, no-op".  The backend is not in src/. -/
def settlementEffector (now : Nat) (s : SettleState) : SettleState :=
  if s.ord.settlement_applied then s
  else
    { ord := { s.ord with settlement_applied := true, confirmed_at := some now }
    , effectCount := s.effectCount + 1 }

/-- Running the Settlement Effector once per element of `nows`, in order. -/
def runEffector (nows : List Nat) (s : SettleState) : SettleState :=
  nows.foldl (fun acc n => settlementEffector n acc) s

/-! ## Address Allocator and Order Store uniqueness (modelled from the spec) -/

/-- Modelled from the spec: the Address Allocator's deterministic public
derivation (section 4.1) — "the same index always derives the same address,
and distinct indices derive distinct addresses".  Addresses are represented
by their derivation index; the backend allocator is not in src/. -/
def deriveAddress (index : Nat) : Nat := index

/-- The slice of a stored order that address uniqueness is about. -/
structure StoredOrder where
  order_id : Nat
  derivation_index : Nat
  address : Nat
  deriving DecidableEq, Repr

/-- Modelled from the spec: the Order Store plus the durable
atomically-incremented `derivation_index` counter (spec sections 4.1, 5, 9);
the backend store is not in src/. -/
structure OrderStore where
  counter : Nat
  orders : List StoredOrder
  deriving DecidableEq, Repr

def emptyStore : OrderStore := { counter := 0, orders := [] }

/-- Modelled from the spec: order creation — take the next index from the
counter, derive the address from it, persist the order, bump the counter
(spec sections 2, 4.1, 5).  The backend is not in src/. -/
def createStoredOrder (st : OrderStore) : OrderStore :=
  let i := st.counter
  { counter := i + 1
  , orders :=
      { order_id := st.orders.length
      , derivation_index := i
      , address := deriveAddress i } :: st.orders }

/-- The store reached after `n` order creations from the empty store. -/
def storeAfter (n : Nat) : OrderStore :=
  Nat.rec emptyStore (fun _ st => createStoredOrder st) n

/-- Store invariant: every persisted index is below the counter and every
address is the derivation of the order's index. -/
def storeInv (st : OrderStore) : Prop :=
  ∀ o ∈ st.orders, o.derivation_index < st.counter ∧
    o.address = deriveAddress o.derivation_index ∧
    (∀ o2 ∈ st.orders, o ≠ o2 → o.derivation_index ≠ o2.derivation_index)

/-! ## Theorems -/

/-- C10: the checkout step indicator is the total function mapping status
`confirmed` to step 2, `paid` to step 1, and every other status — including
the terminal values `expired`, `cancelled`, `failed` and the empty/missing
order — to step 0, so a terminal non-confirmed order is rendered at the same
step as a fresh `pending` order. -/
theorem usdtStepCurrent_total_map (order : Option ClientOrder) :
    (statusOf order = "confirmed" → usdtStepCurrent order = 2) ∧
    (statusOf order = "paid" → usdtStepCurrent order = 1) ∧
    (statusOf order ≠ "confirmed" → statusOf order ≠ "paid" →
      usdtStepCurrent order = 0) ∧
    usdtStepCurrent none = 0 ∧
    (∀ o : ClientOrder,
      o.status = "expired" ∨ o.status = "cancelled" ∨ o.status = "failed" →
      usdtStepCurrent (some o) =
        usdtStepCurrent (some { o with status := "pending" })) := by
  refine ⟨?_, ?_, ?_, rfl, ?_⟩
  · intro h; simp [usdtStepCurrent, h]
  · intro h; simp [usdtStepCurrent, h]
  · intro h1 h2; simp [usdtStepCurrent, h1, h2]
  · intro o ho
    rcases ho with h | h | h <;>
      simp [usdtStepCurrent, statusOf, strTruthy, h]

/-- A concrete expired order used to instantiate hypothesis-bearing theorems. -/
def sampleExpiredOrder : ClientOrder :=
  { order_id := "o1"
  , status := "expired"
  , address := "TAddrSample"
  , amount_usdt := "19.9"
  , chain := "TRC20"
  , expires_at := "2025-01-01" }

theorem usdtStepCurrent_total_map_check :
    usdtStepCurrent (some sampleExpiredOrder) = 0 :=
  (usdtStepCurrent_total_map (some sampleExpiredOrder)).2.2.1
    (by decide) (by decide)

/-- Evaluating `statusOf` on a present order is just its status string: when the status
is falsy it is the empty string, which is what the code substitutes. -/
theorem statusOf_some (o : ClientOrder) : statusOf (some o) = o.status := by
  by_cases h : o.status = ""
  · simp [statusOf, strTruthy, h]
  · simp [statusOf, strTruthy, h]

/-- C4: an order's status ranges over exactly the six values `pending`,
`paid`, `confirmed`, `expired`, `cancelled`, `failed`, with `pending`
initial and `confirmed`/`expired`/`cancelled`/`failed` terminal; the client
maps each of exactly these six to a display label, and classifies precisely
`expired`, `failed` and `cancelled` as red, `confirmed` as green and `paid`
as blue, with every other string falling through to a default. -/
theorem status_domain_and_client_maps :
    (∀ s : OrderStatus,
      s = OrderStatus.pending ∨ s = OrderStatus.paid ∨ s = OrderStatus.confirmed ∨
      s = OrderStatus.expired ∨ s = OrderStatus.cancelled ∨ s = OrderStatus.failed) ∧
    initialStatus = OrderStatus.pending ∧
    (∀ s : OrderStatus, isTerminal s = true ↔
      (s = OrderStatus.confirmed ∨ s = OrderStatus.expired ∨
       s = OrderStatus.cancelled ∨ s = OrderStatus.failed)) ∧
    (∀ p ∈ statusTransitions, isTerminal p.1 = false) ∧
    (∀ str : String, (statusLabelMap str).isSome = true ↔
      ∃ s : OrderStatus, statusWire s = str) ∧
    (∀ o : ClientOrder,
      (statusColor (some o) = "red" ↔
        (o.status = "expired" ∨ o.status = "failed" ∨ o.status = "cancelled")) ∧
      (statusColor (some o) = "green" ↔ o.status = "confirmed") ∧
      (statusColor (some o) = "blue" ↔ o.status = "paid") ∧
      (statusLabelMap o.status = none → statusColor (some o) = "orange")) := by
  refine ⟨?_, rfl, ?_, by decide, ?_, ?_⟩
  · intro s; cases s <;> simp
  · intro s; cases s <;> simp [isTerminal]
  · intro str
    constructor
    · unfold statusLabelMap
      split_ifs with h1 h2 h3 h4 h5 h6 <;> intro hs
      · exact ⟨OrderStatus.pending, h1.symm⟩
      · exact ⟨OrderStatus.paid, h2.symm⟩
      · exact ⟨OrderStatus.confirmed, h3.symm⟩
      · exact ⟨OrderStatus.expired, h4.symm⟩
      · exact ⟨OrderStatus.cancelled, h5.symm⟩
      · exact ⟨OrderStatus.failed, h6.symm⟩
      · simp at hs
    · rintro ⟨s, rfl⟩
      cases s <;> simp [statusLabelMap, statusWire]
  · intro o
    have hs : statusOf (some o) = o.status := statusOf_some o
    refine ⟨?_, ?_, ?_, ?_⟩
    · simp only [statusColor, hs]
      split_ifs with h1 h2 h3 <;> simp_all
      tauto
    · simp only [statusColor, hs]
      split_ifs with h1 h2 h3 <;> simp_all
    · simp only [statusColor, hs]
      split_ifs with h1 h2 h3 <;> simp_all
    · intro hnone
      simp only [statusColor, hs]
      split_ifs with h1 h2 h3
      · rw [h1] at hnone; simp [statusLabelMap] at hnone
      · rw [h2] at hnone; simp [statusLabelMap] at hnone
      · rcases Bool.or_eq_true_iff.mp h3 with h | h
        · rcases Bool.or_eq_true_iff.mp h with h4 | h4 <;>
          · have := of_decide_eq_true h4
            rw [this] at hnone; simp [statusLabelMap] at hnone
        · have := of_decide_eq_true h
          rw [this] at hnone; simp [statusLabelMap] at hnone
      · rfl

theorem status_domain_and_client_maps_check :
    statusColor (some sampleExpiredOrder) = "red" :=
  ((status_domain_and_client_maps.2.2.2.2.2 sampleExpiredOrder).1).mpr
    (Or.inl rfl)

/-- C5: every user-triggered refresh of one order requests exactly one
on-demand Reconciler pass: the client's refresh always issues
GET `/api/billing/usdt/order/<order_id>` with query parameter `refresh = 1`
(`getUsdtOrder(id, r)` encodes the boolean `r` as `refresh = 1` when true
and `0` when false, defaulting to true), for any order id. -/
theorem refresh_requests_one_pass (st : BillingState) (o : ClientOrder)
    (hord : st.usdtOrder = some o) (hid : strTruthy o.order_id = true) :
    refreshRequest st = some (getUsdtOrder o.order_id true) ∧
    (refreshRequest st).map ApiRequest.url =
      some ("/api/billing/usdt/order/" ++ o.order_id) ∧
    (refreshRequest st).map ApiRequest.method = some "get" ∧
    (refreshRequest st).map ApiRequest.params = some [("refresh", 1)] ∧
    (∀ id : String, ∀ b : Bool,
      (getUsdtOrder id b).url = "/api/billing/usdt/order/" ++ id ∧
      (getUsdtOrder id b).method = "get" ∧
      (getUsdtOrder id b).params = [("refresh", if b then 1 else 0)]) ∧
    getUsdtOrderDefaultRefresh = true := by
  have hreq : refreshRequest st = some (getUsdtOrder o.order_id true) := by
    simp [refreshRequest, hord, hid]
  refine ⟨hreq, ?_, ?_, ?_, ?_, rfl⟩
  · simp [hreq, getUsdtOrder, usdtOrderUrl]
  · simp [hreq, getUsdtOrder]
  · simp [hreq, getUsdtOrder]
  · intro id b
    refine ⟨rfl, rfl, rfl⟩

/-- A concrete pending order used to instantiate hypothesis-bearing
theorems about the refresh flow. -/
def samplePendingOrder : ClientOrder :=
  { order_id := "ord-42"
  , status := "pending"
  , address := "TAddrFresh"
  , amount_usdt := "19.9"
  , chain := "TRC20"
  , expires_at := "2025-01-01" }

/-- A concrete component state with the payment modal open on
`samplePendingOrder` and one polling interval scheduled. -/
def samplePollingState : BillingState :=
  { usdtModalVisible := true
  , usdtOrder := some samplePendingOrder
  , usdtPollingTimer := some 1
  , scheduled := [(1, 5000)]
  , nextTimerId := 2 }

theorem refresh_requests_one_pass_check :
    refreshRequest samplePollingState =
      some (getUsdtOrder "ord-42" true) :=
  (refresh_requests_one_pass samplePollingState samplePendingOrder
    rfl (by decide)).1

/-- Stopping the poller only touches the timer fields, never the order. -/
theorem stopUsdtPolling_usdtOrder (st : BillingState) :
    (stopUsdtPolling st).usdtOrder = st.usdtOrder := by
  unfold stopUsdtPolling
  split_ifs with h
  · cases st.usdtPollingTimer <;> rfl
  · rfl

/-- C3: for every existing order, a refresh never loses state merely because
the oracle was slow: when the refresh call errors, times out, or returns an
unsuccessful body, the caller is left with the order's last known state
unchanged (the displayed order object is exactly what it was before the
failed refresh), and only a successful response replaces it. -/
theorem refresh_keeps_stale_state_on_failure (st : BillingState)
    (res : Option ApiResponse) :
    ((res = none ∨ ∃ r, res = some r ∧ ¬(r.code = 1 ∧ r.data ≠ none)) →
      refreshUsdtOrder st res = st) ∧
    (∀ o r d, st.usdtOrder = some o → strTruthy o.order_id = true →
      res = some r → r.code = 1 → r.data = some d →
      (refreshUsdtOrder st res).usdtOrder = some d) := by
  constructor
  · rintro (rfl | ⟨r, rfl, hbad⟩)
    · cases hord : st.usdtOrder with
      | none => simp [refreshUsdtOrder, hord]
      | some o =>
        by_cases hid : strTruthy o.order_id = true
        · simp [refreshUsdtOrder, hord, hid]
        · simp [refreshUsdtOrder, hord, hid]
    · cases hord : st.usdtOrder with
      | none => simp [refreshUsdtOrder, hord]
      | some o =>
        by_cases hid : strTruthy o.order_id = true
        · by_cases hc : r.code = 1
          · have hdata : r.data = none := by
              rcases hd : r.data with _ | d
              · rfl
              · exact absurd ⟨hc, by simp [hd]⟩ hbad
            simp [refreshUsdtOrder, hord, hid, hc, hdata]
          · simp [refreshUsdtOrder, hord, hid, hc]
        · simp [refreshUsdtOrder, hord, hid]
  · intro o r d hord hid hres hc hd
    subst hres
    by_cases hconf : d.status = "confirmed"
    · simp [refreshUsdtOrder, hord, hid, hc, hd, hconf,
        stopUsdtPolling_usdtOrder]
    · simp [refreshUsdtOrder, hord, hid, hc, hd, hconf]

/-- The unsuccessful body `{ code: 0, data: null }`. -/
def sampleFailResponse : ApiResponse := { code := 0, data := none }

theorem refresh_keeps_stale_state_on_failure_check :
    refreshUsdtOrder samplePollingState (some sampleFailResponse) =
      samplePollingState :=
  (refresh_keeps_stale_state_on_failure samplePollingState
    (some sampleFailResponse)).1
    (Or.inr ⟨sampleFailResponse, rfl, by decide⟩)

/-- Stopping the poller only touches the timer fields, never the modal flag. -/
theorem stopUsdtPolling_modal (st : BillingState) :
    (stopUsdtPolling st).usdtModalVisible = st.usdtModalVisible := by
  unfold stopUsdtPolling
  split_ifs with h
  · cases st.usdtPollingTimer <;> rfl
  · rfl

/-- Stopping the poller does not consume timer ids. -/
theorem stopUsdtPolling_nextTimerId (st : BillingState) :
    (stopUsdtPolling st).nextTimerId = st.nextTimerId := by
  unfold stopUsdtPolling
  split_ifs with h
  · cases st.usdtPollingTimer <;> rfl
  · rfl

/-- The visible fields of `startUsdtPolling`: the order and modal flag are
untouched, a fresh interval with the 5000 ms period is scheduled, and the
handle points at it. -/
theorem startUsdtPolling_fields (st : BillingState) :
    (startUsdtPolling st).usdtOrder = st.usdtOrder ∧
    (startUsdtPolling st).usdtModalVisible = st.usdtModalVisible ∧
    (startUsdtPolling st).usdtPollingTimer = some st.nextTimerId ∧
    (st.nextTimerId, usdtPollPeriodMs) ∈ (startUsdtPolling st).scheduled := by
  unfold startUsdtPolling
  refine ⟨stopUsdtPolling_usdtOrder st, stopUsdtPolling_modal st, ?_, ?_⟩
  · simp [stopUsdtPolling_nextTimerId]
  · simp [stopUsdtPolling_nextTimerId]

/-- C6: for every purchase request with a plan, the flow is: create the
order, and on a successful response show the returned order (its address and
amount in USDT) and start a polling loop that refreshes this one order every
5000 ms; on an unsuccessful response no order is shown and no polling
starts (the component state is unchanged). -/
theorem buy_flow (st : BillingState) (res : Option ApiResponse) :
    (∀ r d, res = some r → r.code = 1 → r.data = some d →
      (buy st res).usdtOrder = some d ∧
      (buy st res).usdtModalVisible = true ∧
      displayedAddress (buy st res) = some d.address ∧
      displayedAmount (buy st res) = some d.amount_usdt ∧
      (∃ t, (buy st res).usdtPollingTimer = some t ∧
        (t, usdtPollPeriodMs) ∈ (buy st res).scheduled) ∧
      usdtPollPeriodMs = 5000 ∧
      (strTruthy d.order_id = true →
        refreshRequest (buy st res) = some (getUsdtOrder d.order_id true))) ∧
    ((res = none ∨ ∃ r, res = some r ∧ ¬(r.code = 1 ∧ r.data ≠ none)) →
      buy st res = st) := by
  constructor
  · intro r d hres hc hd
    subst hres
    have hbuy : buy st (some r) =
        startUsdtPolling
          { st with usdtOrder := some d, usdtModalVisible := true } := by
      simp [buy, hc, hd]
    set st2 : BillingState :=
      { st with usdtOrder := some d, usdtModalVisible := true } with hst2
    obtain ⟨f1, f2, f3, f4⟩ := startUsdtPolling_fields st2
    rw [hbuy]
    have hord : (startUsdtPolling st2).usdtOrder = some d := by
      rw [f1]
    have hmodal : (startUsdtPolling st2).usdtModalVisible = true := by
      rw [f2]
    refine ⟨hord, hmodal, ?_, ?_, ⟨st2.nextTimerId, f3, f4⟩, rfl, ?_⟩
    · simp [displayedAddress, hmodal, hord]
    · simp [displayedAmount, hmodal, hord]
    · intro hid
      simp [refreshRequest, hord, hid]
  · rintro (rfl | ⟨r, rfl, hbad⟩)
    · rfl
    · by_cases hc : r.code = 1
      · have hdata : r.data = none := by
          rcases hd : r.data with _ | d
          · rfl
          · exact absurd ⟨hc, by simp [hd]⟩ hbad
        simp [buy, hc, hdata]
      · simp [buy, hc]

/-- The successful creation response carrying `samplePendingOrder`. -/
def sampleCreateResponse : ApiResponse :=
  { code := 1, data := some samplePendingOrder }

theorem buy_flow_check :
    (buy initialBillingState (some sampleCreateResponse)).usdtOrder =
      some samplePendingOrder :=
  ((buy_flow initialBillingState (some sampleCreateResponse)).1
    sampleCreateResponse samplePendingOrder rfl rfl rfl).1

/-- Under the timer invariant, `stopUsdtPolling` nulls the handle, clears
the one scheduled interval, and leaves every other field alone. -/
theorem stopUsdtPolling_clears (st : BillingState) (h : timerInv st = true) :
    (stopUsdtPolling st).usdtPollingTimer = none ∧
    (stopUsdtPolling st).scheduled = [] ∧
    (stopUsdtPolling st).usdtOrder = st.usdtOrder ∧
    (stopUsdtPolling st).usdtModalVisible = st.usdtModalVisible ∧
    (stopUsdtPolling st).nextTimerId = st.nextTimerId := by
  cases ht : st.usdtPollingTimer with
  | none =>
    rcases hs : st.scheduled with _ | ⟨⟨a, p⟩, rest⟩
    · simp [stopUsdtPolling, timerTruthy, ht, hs]
    · simp [timerInv, ht, hs] at h
  | some t =>
    rcases hs : st.scheduled with _ | ⟨⟨a, p⟩, _ | ⟨q, rest⟩⟩
    · simp [timerInv, ht, hs] at h
    · simp [timerInv, ht, hs] at h
      obtain ⟨⟨⟨hat, h1t⟩, _⟩, _⟩ := h
      have htz : ¬ t = 0 := by omega
      simp [stopUsdtPolling, timerTruthy, ht, hs, htz, hat]
    · simp [timerInv, ht, hs] at h

/-- The timer invariant ignores the order and modal fields. -/
theorem timerInv_set_order (st : BillingState) (o : Option ClientOrder)
    (b : Bool) :
    timerInv { st with usdtOrder := o, usdtModalVisible := b } =
      timerInv st := rfl

/-- Stopping the poller preserves the timer invariant. -/
theorem timerInv_stop (st : BillingState) (h : timerInv st = true) :
    timerInv (stopUsdtPolling st) = true := by
  obtain ⟨h1, h2, _, _, h5⟩ := stopUsdtPolling_clears st h
  have hn : 1 ≤ st.nextTimerId := by
    cases ht : st.usdtPollingTimer with
    | none =>
      rcases hs : st.scheduled with _ | ⟨⟨a, p⟩, rest⟩ <;>
        simp [timerInv, ht, hs] at h
      omega
    | some t =>
      rcases hs : st.scheduled with _ | ⟨⟨a, p⟩, _ | ⟨q, rest⟩⟩ <;>
        simp [timerInv, ht, hs] at h
      omega
  simp [timerInv, h1, h2, h5]
  omega

/-- Starting the poller establishes the timer invariant. -/
theorem timerInv_start (st : BillingState) (h : timerInv st = true) :
    timerInv (startUsdtPolling st) = true := by
  obtain ⟨h1, h2, _, _, h5⟩ := stopUsdtPolling_clears st h
  have hn : 1 ≤ st.nextTimerId := by
    have := timerInv_stop st h
    simp [timerInv, h1, h2, h5] at this
    omega
  simp [startUsdtPolling, timerInv, h2, h5]
  omega

/-- One component event preserves the timer invariant. -/
theorem timerInv_step (st : BillingState) (e : BillingEvent)
    (h : timerInv st = true) : timerInv (stepEvent st e) = true := by
  cases e with
  | buyEv res =>
    cases res with
    | none => exact h
    | some r =>
      by_cases hc : r.code = 1
      · cases hd : r.data with
        | none => simpa [stepEvent, buy, hc, hd] using h
        | some d =>
          have : timerInv
              { st with usdtOrder := some d, usdtModalVisible := true } =
              true := by rw [timerInv_set_order]; exact h
          simpa [stepEvent, buy, hc, hd] using timerInv_start _ this
      · simpa [stepEvent, buy, hc] using h
  | refreshEv res =>
    cases hord : st.usdtOrder with
    | none => simpa [stepEvent, refreshUsdtOrder, hord] using h
    | some o =>
      by_cases hid : strTruthy o.order_id = true
      · cases res with
        | none => simpa [stepEvent, refreshUsdtOrder, hord, hid] using h
        | some r =>
          by_cases hc : r.code = 1
          · cases hd : r.data with
            | none =>
              simpa [stepEvent, refreshUsdtOrder, hord, hid, hc, hd] using h
            | some d =>
              have hinv2 : timerInv
                  { st with usdtOrder := some d } = true := by
                have e : timerInv { st with usdtOrder := some d } =
                    timerInv st := rfl
                rw [e]; exact h
              by_cases hconf : d.status = "confirmed"
              · simpa [stepEvent, refreshUsdtOrder, hord, hid, hc, hd, hconf]
                  using timerInv_stop _ hinv2
              · simpa [stepEvent, refreshUsdtOrder, hord, hid, hc, hd, hconf]
                  using hinv2
          · simpa [stepEvent, refreshUsdtOrder, hord, hid, hc] using h
      · simpa [stepEvent, refreshUsdtOrder, hord, hid] using h
  | closeEv =>
    have hinv2 : timerInv { st with usdtModalVisible := false } = true := by
      have e : timerInv { st with usdtModalVisible := false } =
          timerInv st := rfl
      rw [e]; exact h
    simpa [stepEvent, closeUsdtModal] using timerInv_stop _ hinv2
  | destroyEv => simpa [stepEvent, beforeDestroy] using timerInv_stop st h

/-- The timer invariant forces the claimed shape: handle non-null exactly
when one interval is scheduled, never more than one. -/
theorem timerInv_shape (st : BillingState) (h : timerInv st = true) :
    (st.usdtPollingTimer ≠ none ↔ st.scheduled.length = 1) ∧
    st.scheduled.length ≤ 1 := by
  cases ht : st.usdtPollingTimer with
  | none =>
    rcases hs : st.scheduled with _ | ⟨⟨a, p⟩, rest⟩
    · simp [hs]
    · simp [timerInv, ht, hs] at h
  | some t =>
    rcases hs : st.scheduled with _ | ⟨⟨a, p⟩, _ | ⟨q, rest⟩⟩
    · simp [timerInv, ht, hs] at h
    · simp [hs]
    · simp [timerInv, ht, hs] at h

/-- C9: at most one polling timer is ever active: `startUsdtPolling` always
stops the previous interval before creating a new one and `stopUsdtPolling`
clears and nulls the handle, so every sequence of buy / refresh / close /
destroy events preserves the invariant that `usdtPollingTimer` is non-null
exactly when one interval is scheduled — no sequence of purchase flows ever
leaks a second timer. -/
theorem single_polling_timer (es : List BillingEvent) (st : BillingState)
    (h : timerInv st = true) :
    timerInv (es.foldl stepEvent st) = true ∧
    ((es.foldl stepEvent st).usdtPollingTimer ≠ none ↔
      (es.foldl stepEvent st).scheduled.length = 1) ∧
    (es.foldl stepEvent st).scheduled.length ≤ 1 ∧
    timerInv initialBillingState = true ∧
    ((stopUsdtPolling st).usdtPollingTimer = none ∧
      (stopUsdtPolling st).scheduled = []) := by
  have hfold : timerInv (es.foldl stepEvent st) = true := by
    induction es generalizing st with
    | nil => exact h
    | cons e rest ih => exact ih (stepEvent st e) (timerInv_step st e h)
  obtain ⟨hshape1, hshape2⟩ := timerInv_shape _ hfold
  obtain ⟨hc1, hc2, _, _, _⟩ := stopUsdtPolling_clears st h
  exact ⟨hfold, hshape1, hshape2, by decide, hc1, hc2⟩

theorem single_polling_timer_check :
    timerInv (([BillingEvent.buyEv (some sampleCreateResponse),
      BillingEvent.buyEv (some sampleCreateResponse),
      BillingEvent.closeEv]).foldl stepEvent initialBillingState) = true :=
  (single_polling_timer _ initialBillingState (by decide)).1

/-- Whether a settled refresh outcome delivers a `confirmed` order — the
only refresh outcome whose handler stops the 5-second polling loop. -/
def deliversConfirmed : Option ApiResponse → Bool
  | some r =>
    decide (r.code = 1) &&
      (match r.data with
       | some d => decide (d.status = "confirmed")
       | none => false)
  | none => false

/-- One refresh whose outcome is not a confirmed order leaves the polling
timer and the browser interval schedule untouched. -/
theorem refresh_timer_frozen (st : BillingState) (res : Option ApiResponse)
    (h : deliversConfirmed res = false) :
    (refreshUsdtOrder st res).usdtPollingTimer = st.usdtPollingTimer ∧
    (refreshUsdtOrder st res).scheduled = st.scheduled := by
  cases hord : st.usdtOrder with
  | none => simp [refreshUsdtOrder, hord]
  | some o =>
    by_cases hid : strTruthy o.order_id = true
    · cases res with
      | none => simp [refreshUsdtOrder, hord, hid]
      | some r =>
        by_cases hc : r.code = 1
        · cases hd : r.data with
          | none => simp [refreshUsdtOrder, hord, hid, hc, hd]
          | some d =>
            have hconf : ¬ d.status = "confirmed" := by
              simp [deliversConfirmed, hc, hd] at h
              exact h
            simp [refreshUsdtOrder, hord, hid, hc, hd, hconf]
        · simp [refreshUsdtOrder, hord, hid, hc]
    · simp [refreshUsdtOrder, hord, hid]

/-- C8: the client's 5-second polling loop stops only when a refresh
observes status `confirmed`, when the user closes the payment modal, or when
the page is destroyed; for every other refresh outcome — including the
terminal statuses `expired`, `cancelled` and `failed` — the poller keeps its
interval and keeps issuing reconciliation requests for the dead order. -/
theorem polling_stops_only_on_confirmed (st : BillingState)
    (ress : List (Option ApiResponse)) (res : Option ApiResponse) :
    ((∀ x ∈ ress, deliversConfirmed x = false) →
      (ress.foldl refreshUsdtOrder st).usdtPollingTimer =
        st.usdtPollingTimer) ∧
    (∀ o r d, timerInv st = true → st.usdtOrder = some o →
      strTruthy o.order_id = true → res = some r → r.code = 1 →
      r.data = some d → d.status = "confirmed" →
      (refreshUsdtOrder st res).usdtPollingTimer = none ∧
      (refreshUsdtOrder st res).scheduled = []) ∧
    (timerInv st = true →
      (closeUsdtModal st).usdtPollingTimer = none ∧
      (beforeDestroy st).usdtPollingTimer = none) ∧
    (∀ o r d, st.usdtOrder = some o → strTruthy o.order_id = true →
      res = some r → r.code = 1 → r.data = some d →
      (d.status = "expired" ∨ d.status = "cancelled" ∨
        d.status = "failed") →
      strTruthy d.order_id = true →
      refreshRequest (refreshUsdtOrder st res) =
        some (getUsdtOrder d.order_id true)) := by
  refine ⟨?_, ?_, ?_, ?_⟩
  · intro hall
    induction ress generalizing st with
    | nil => rfl
    | cons x rest ih =>
      have hx : deliversConfirmed x = false := hall x (by simp)
      have hrest : ∀ y ∈ rest, deliversConfirmed y = false := by
        intro y hy; exact hall y (by simp [hy])
      calc (List.foldl refreshUsdtOrder st (x :: rest)).usdtPollingTimer
          = (refreshUsdtOrder st x).usdtPollingTimer := by
            simpa using ih (refreshUsdtOrder st x) hrest
        _ = st.usdtPollingTimer := (refresh_timer_frozen st x hx).1
  · intro o r d hinv hord hid hres hc hd hconf
    subst hres
    have hinv2 : timerInv { st with usdtOrder := some d } = true := by
      have e : timerInv { st with usdtOrder := some d } =
          timerInv st := rfl
      rw [e]; exact hinv
    obtain ⟨s1, s2, _, _, _⟩ := stopUsdtPolling_clears _ hinv2
    constructor
    · simpa [refreshUsdtOrder, hord, hid, hc, hd, hconf] using s1
    · simpa [refreshUsdtOrder, hord, hid, hc, hd, hconf] using s2
  · intro hinv
    have hinv2 : timerInv { st with usdtModalVisible := false } = true := by
      have e : timerInv { st with usdtModalVisible := false } =
          timerInv st := rfl
      rw [e]; exact hinv
    obtain ⟨s1, _, _, _, _⟩ := stopUsdtPolling_clears _ hinv2
    obtain ⟨t1, _, _, _, _⟩ := stopUsdtPolling_clears _ hinv
    exact ⟨by simpa [closeUsdtModal] using s1,
      by simpa [beforeDestroy] using t1⟩
  · intro o r d hord hid hres hc hd hdead hidd
    subst hres
    have hconf : ¬ d.status = "confirmed" := by
      rcases hdead with h | h | h <;> simp [h]
    have hres2 : (refreshUsdtOrder st (some r)).usdtOrder = some d := by
      simp [refreshUsdtOrder, hord, hid, hc, hd, hconf]
    simp [refreshRequest, hres2, hidd]

/-- The successful refresh response delivering the sample order expired. -/
def sampleExpiredResponse : ApiResponse :=
  { code := 1, data := some sampleExpiredOrder }

theorem polling_stops_only_on_confirmed_check :
    refreshRequest
      (refreshUsdtOrder samplePollingState (some sampleExpiredResponse)) =
      some (getUsdtOrder "o1" true) :=
  (polling_stops_only_on_confirmed samplePollingState []
    (some sampleExpiredResponse)).2.2.2 samplePendingOrder
    sampleExpiredResponse sampleExpiredOrder rfl (by decide) rfl rfl rfl
    (Or.inl rfl) (by decide)

/-- Once `settlement_applied` is set, any further effector runs change
nothing at all. -/
theorem runEffector_applied (nows : List Nat) (s : SettleState)
    (h : s.ord.settlement_applied = true) : runEffector nows s = s := by
  induction nows with
  | nil => rfl
  | cons n rest ih =>
    have hone : settlementEffector n s = s := by
      simp [settlementEffector, h]
    simpa [runEffector, hone] using ih

/-- C1: running the Settlement Effector N ≥ 1 times on the same confirmed
order applies the account-crediting effect exactly once — the first run with
`settlement_applied = false` applies the effect and sets
`settlement_applied = true` and `confirmed_at`, and every subsequent run is
a no-op (idempotence of the settlement operation). -/
theorem settlement_exactly_once (nows : List Nat) (s : SettleState)
    (hst : s.ord.status = OrderStatus.confirmed)
    (hap : s.ord.settlement_applied = false)
    (hne : nows ≠ []) :
    (runEffector nows s).effectCount = s.effectCount + 1 ∧
    (runEffector nows s).ord.settlement_applied = true ∧
    (∀ n0 rest, nows = n0 :: rest →
      (runEffector nows s).ord.confirmed_at = some n0) ∧
    (runEffector nows s).ord.status = OrderStatus.confirmed ∧
    (∀ (now : Nat) (s2 : SettleState), s2.ord.settlement_applied = true →
      settlementEffector now s2 = s2) := by
  have hnoop : ∀ (now : Nat) (s2 : SettleState),
      s2.ord.settlement_applied = true → settlementEffector now s2 = s2 := by
    intro now s2 h2
    simp [settlementEffector, h2]
  cases nows with
  | nil => exact absurd rfl hne
  | cons n0 rest =>
    have hfirst : settlementEffector n0 s =
        { ord := { s.ord with settlement_applied := true, confirmed_at := some n0 }, effectCount := s.effectCount + 1 } := by
      simp [settlementEffector, hap]
    have hrun : runEffector (n0 :: rest) s =
        runEffector rest (settlementEffector n0 s) := rfl
    have happlied : (settlementEffector n0 s).ord.settlement_applied =
        true := by rw [hfirst]
    have hrest : runEffector rest (settlementEffector n0 s) =
        settlementEffector n0 s := runEffector_applied rest _ happlied
    rw [hrun, hrest, hfirst]
    refine ⟨rfl, rfl, ?_, hst, hnoop⟩
    intro m0 mrest hm
    injection hm with hm0 _
    rw [hm0]

/-- A confirmed, not-yet-settled order, ready for the effector. -/
def sampleConfirmedOrder : PaymentOrder :=
  { order_id := 7
  , plan := "monthly"
  , expected_amount := 19.9
  , observed_amount := 19.89
  , status := OrderStatus.confirmed
  , tx_reference := some "tx-123"
  , created_at := 100
  , expires_at := 1900
  , confirmed_at := none
  , settlement_applied := false }

theorem settlement_exactly_once_check :
    (runEffector [5, 6, 7]
      { ord := sampleConfirmedOrder, effectCount := 0 }).effectCount = 1 :=
  (settlement_exactly_once [5, 6, 7]
    { ord := sampleConfirmedOrder, effectCount := 0 }
    rfl rfl (by decide)).1

/-- The empty store satisfies the store invariant. -/
theorem storeInv_empty : storeInv emptyStore := by
  intro o ho
  simp [emptyStore] at ho

/-- Creating one order preserves the store invariant: the fresh order takes
the counter as its derivation index, strictly above every persisted one. -/
theorem storeInv_create (st : OrderStore) (h : storeInv st) :
    storeInv (createStoredOrder st) := by
  intro o ho
  simp only [createStoredOrder, List.mem_cons] at ho
  rcases ho with rfl | ho
  · refine ⟨by simp [createStoredOrder], rfl, ?_⟩
    intro o2 ho2 hne
    simp only [createStoredOrder, List.mem_cons] at ho2
    rcases ho2 with rfl | ho2
    · exact absurd rfl hne
    · have := (h o2 ho2).1
      simp only []
      omega
  · obtain ⟨hlt, haddr, hpair⟩ := h o ho
    refine ⟨by simp [createStoredOrder]; omega, haddr, ?_⟩
    intro o2 ho2 hne
    simp only [createStoredOrder, List.mem_cons] at ho2
    rcases ho2 with rfl | ho2
    · simp only []
      omega
    · exact hpair o2 ho2 hne

/-- The store reached after any number of creations satisfies the
invariant. -/
theorem storeInv_after (n : Nat) : storeInv (storeAfter n) := by
  induction n with
  | zero => exact storeInv_empty
  | succ k ih => exact storeInv_create (storeAfter k) ih

/-- C2: for every two distinct payment orders in the store, their addresses
differ — an address allocated to one order is never reused by any other
order for the whole lifetime of the store. -/
theorem no_address_reuse (n : Nat) (o1 o2 : StoredOrder)
    (h1 : o1 ∈ (storeAfter n).orders) (h2 : o2 ∈ (storeAfter n).orders)
    (hne : o1 ≠ o2) : o1.address ≠ o2.address := by
  obtain ⟨_, haddr1, hpair⟩ := storeInv_after n o1 h1
  obtain ⟨_, haddr2, _⟩ := storeInv_after n o2 h2
  have hidx : o1.derivation_index ≠ o2.derivation_index := hpair o2 h2 hne
  rw [haddr1, haddr2]
  simpa [deriveAddress] using hidx

theorem no_address_reuse_check :
    ({ order_id := 1, derivation_index := 1, address := 1 } :
        StoredOrder).address ≠
      ({ order_id := 0, derivation_index := 0, address := 0 } :
        StoredOrder).address :=
  no_address_reuse 2
    { order_id := 1, derivation_index := 1, address := 1 }
    { order_id := 0, derivation_index := 0, address := 0 }
    (by decide) (by decide) (by decide)

/-- No lifecycle mutation ever rewrites `expected_amount`. -/
theorem applyOrderOp_expected (o : PaymentOrder) (op : OrderOp) :
    (applyOrderOp o op).expected_amount = o.expected_amount := by
  cases op <;> simp only [applyOrderOp] <;> split_ifs <;> rfl

/-- C7: the expected amount of a monthly-plan order is fixed at creation
from the plan price of 19.90 USD (the client's default plan table prices
monthly at 19.9, yearly at 199, lifetime at 499), and the price is not
re-evaluated after the order exists: no sequence of lifecycle mutations
changes it. -/
theorem monthly_expected_amount_fixed (ops : List OrderOp) (oid : Nat)
    (pl : String) (now ttl : Nat) :
    (ops.foldl applyOrderOp
      (createPaymentOrder oid pl defaultPlans.monthly.price_usd now
        ttl)).expected_amount = 19.9 ∧
    defaultPlans.monthly.price_usd = 19.9 ∧
    defaultPlans.yearly.price_usd = 199 ∧
    defaultPlans.lifetime.price_usd = 499 ∧
    (∀ (o : PaymentOrder) (op : OrderOp),
      (applyOrderOp o op).expected_amount = o.expected_amount) := by
  have hfold : ∀ (l : List OrderOp) (o : PaymentOrder),
      (l.foldl applyOrderOp o).expected_amount = o.expected_amount := by
    intro l
    induction l with
    | nil => intro o; rfl
    | cons op rest ih =>
      intro o
      calc ((op :: rest).foldl applyOrderOp o).expected_amount
          = (applyOrderOp o op).expected_amount := ih (applyOrderOp o op)
        _ = o.expected_amount := applyOrderOp_expected o op
  exact ⟨hfold ops _, rfl, rfl, rfl, applyOrderOp_expected⟩

end QuantDinger
